import Mathlib

/-!
Verification of the olane-go address-routing and request-dispatch core.

This file shallowly embeds the parts of the repository that the verified
properties talk about:

* `pkg/core/address.go` — the `OAddress` value type (`OAddr` below, plus a
  heap-level model `Mem`/`AddrObj` used for the aliasing/mutation
  properties, since Go addresses are pointers to mutable objects and Go
  transport lists are slices with a shared backing array);
* `pkg/core/types.go` — the resolver chain (`AddressResolution.Resolve`);
* the `CoreNode` file — static alias translation
  (`HandleStaticAddressTranslation`), transport selection
  (`GetTransports`), dispatch (`Use`) and its counters, and the lifecycle
  (`Start`/`Stop`).

External collaborators (the libp2p host, the connection manager, the
registry reached over the network, the overridable `Initialize` hook) are
modelled as explicit outcome parameters, exactly at the call boundaries
where the Go code invokes them.  Go string functions (`strings.HasPrefix`,
`strings.HasSuffix`, `strings.TrimPrefix`, `strings.Split`,
`strings.Join`) are modelled by structurally recursive character-list
functions with the same behaviour.  The two `int64` statistics counters
only ever increase by one; they are modelled as `Nat` (wraparound after
2^63 increments is out of scope).
-/

set_option autoImplicit false
set_option maxRecDepth 4000

namespace OlaneGo

/-- `strings.HasPrefix s p`: `p` is a literal textual prefix of `s`. -/
def strHasPre (s p : String) : Bool := p.data.isPrefixOf s.data

/-- `strings.HasSuffix s p`: `p` is a literal textual suffix of `s`. -/
def strHasSuf (s p : String) : Bool := p.data.isSuffixOf s.data

/-- `strings.TrimPrefix s p`: remove a leading `p` when present,
otherwise return `s` unchanged. -/
def strTrimPre (s p : String) : String :=
  if strHasPre s p then ⟨s.data.drop p.data.length⟩ else s

/-- `strings.Split cs "/"` on character lists: splitting the empty string
yields one empty segment, exactly as in Go. -/
def splitSlashChars : List Char → List (List Char)
  | [] => [[]]
  | c :: rest =>
    let r := splitSlashChars rest
    if c = '/' then [] :: r
    else
      match r with
      | [] => [[c]]
      | h :: t => (c :: h) :: t

/-- `strings.Split s "/")` as a list of strings. -/
def splitSlash (s : String) : List String :=
  (splitSlashChars s.data).map fun cs => ⟨cs⟩

/-- `strings.Join l "/")`. -/
def joinSlash : List String → String
  | [] => ""
  | [x] => x
  | x :: xs => x ++ "/" ++ joinSlash xs

/-- A transport hint attached to a logical address: either a structured
libp2p multiaddr (kept in its string form — all multiaddrs the code
manipulates originate from or round-trip through strings) or an opaque
custom string.  This is the closed two-variant reading of the dynamic
`[]interface{}` field of `OAddress`. -/
inductive Transport where
  | ma (s : String)
  | custom (s : String)
deriving DecidableEq, Repr

/-- The string form of a transport hint (`multiaddr.String()` for
structured hints, the string itself otherwise), as used by
`OAddress.AllTransports`. -/
def Transport.toStr : Transport → String
  | .ma s => s
  | .custom s => s

/-- `OAddress` (`pkg/core/address.go`): a hierarchical `o://` value plus
an ordered list of transport hints.  This is the value-level model; the
heap-level model `Mem`/`AddrObj` below additionally captures object
identity. -/
structure OAddr where
  value : String
  transports : List Transport
deriving DecidableEq, Repr

/-- `OAddress.LibP2PTransports`: only the structured multiaddr hints, in
order; opaque string hints are filtered out. -/
def OAddr.libP2PTransports (a : OAddr) : List String :=
  a.transports.filterMap fun t =>
    match t with
    | .ma s => some s
    | .custom _ => none

/-- `OAddress.AllTransports`: all hints as strings, in order. -/
def OAddr.allTransports (a : OAddr) : List String :=
  a.transports.map Transport.toStr

/-- `OAddress.Paths`: the value with the `o://` scheme removed. -/
def oPaths (v : String) : String := strTrimPre v "o://"

/-- `OAddress.SplitAddress`: the `/`-separated path segments, the empty
list when there is no path. -/
def oSegs (v : String) : List String :=
  if oPaths v = "" then [] else splitSlash (oPaths v)

/-- `OAddress.SplitAddress` on the value-level address. -/
def OAddr.splitAddress (a : OAddr) : List String := oSegs a.value

/-- The new value computed by `OAddress.WithPath` (`address.go`): a `/` is
inserted between the receiver's value and the appended path only when the
value does not already end with `/` and the path does not already begin
with `/`. -/
def withPathValue (v p : String) : String :=
  (if !(strHasSuf v "/") && !(strHasPre p "/") then v ++ "/" else v) ++ p

/-- `OAddress.WithPath` at value level: new value via `withPathValue`, the
transport list carried over. -/
def OAddr.withPath (a : OAddr) (p : String) : OAddr :=
  { value := withPathValue a.value p, transports := a.transports }

/-- A registered resolver's `Resolve` method (`AddressResolver` in
`types.go`): `none` models a non-nil error (no match), `some` a successful
resolution. -/
abbrev Resolver : Type := OAddr → Option OAddr

/-- `AddressResolution.Resolve` (`types.go`): try each resolver in
registration order, the first one that returns without error wins; when
none matches, return the original address with a nil error.  The `Except`
mirrors the Go `(*OAddress, error)` signature. -/
def resolveChain : List Resolver → OAddr → Except String OAddr
  | [], a => .ok a
  | r :: rs, a =>
    match r a with
    | some resolved => .ok resolved
    | none => resolveChain rs a

/-- Outcome of the registry search issued by
`HandleStaticAddressTranslation` (the nested
`Use(searchAddr, "search", …)` call plus the shape checks performed on the
reply): the nested dispatch may fail, the reply's `Result` may be nil, the
non-nil `Result` may not be a JSON object (`resultNotMap` — the code's
inner map type assertion on `response.Result` is the unchecked
single-value form, which panics at runtime on this shape), the `data`
field may be missing / not a list / empty, the first entry may not be a
map carrying a string `address`, or a canonical address string is found
in the first entry. -/
inductive SearchResponse where
  | useErr
  | nilResult
  | resultNotMap
  | badData
  | firstMalformed
  | firstAddr (canon : String)
deriving DecidableEq, Repr

/-- The result of running a piece of Go code that can panic at runtime:
either a returned value or a panic unwinding the call. -/
inductive GoResult (α : Type) where
  | ret (a : α)
  | crashed
deriving DecidableEq, Repr

/-- The rewritten value on a registry match: the canonical address string
followed by every path segment of the input beyond its root (the code
joins `SplitAddress()[1:]` back with `/`); a bare root with no remainder
yields the canonical string as-is. -/
def staticResolvedValue (canon v : String) : String :=
  let parts := oSegs v
  if parts.length > 1 then canon ++ "/" ++ joinSlash (parts.drop 1)
  else canon

/-- `CoreNode.HandleStaticAddressTranslation`, with the registry
round-trip abstracted into a `SearchResponse`.  Addresses already under
the literal prefix `o://leader` are returned untouched; a usable first
search result rewrites the value via `staticResolvedValue` and carries the
input's transports forward as their string forms (the code converts
`AllTransports()` into plain strings for the new address); a non-nil
`Result` that is not a JSON object hits the unchecked inner type
assertion and panics; every other outcome falls through to the original
address.  On each returning path the Go function returns a nil error,
which the inner `Except` mirrors.  (The temporary `searchAddr` object
built for the lookup does not flow into the result and is omitted.) -/
def handleStaticAddressTranslation (resp : SearchResponse) (a : OAddr) :
    GoResult (Except String OAddr) :=
  if strHasPre a.value "o://leader" then .ret (.ok a)
  else
    match resp with
    | .useErr => .ret (.ok a)
    | .nilResult => .ret (.ok a)
    | .resultNotMap => .crashed
    | .badData => .ret (.ok a)
    | .firstMalformed => .ret (.ok a)
    | .firstAddr canon =>
      .ret (.ok { value := staticResolvedValue canon a.value
                  transports := a.allTransports.map Transport.custom })

/-- `NodeState` (`types.go`). -/
inductive NodeState where
  | starting
  | running
  | stopping
  | stopped
  | error
deriving DecidableEq, Repr

/-- `NodeType` (`types.go`). -/
inductive NodeType where
  | leader
  | root
  | node
  | tool
  | agent
  | human
  | unknown
deriving DecidableEq, Repr

/-- The pieces of `CoreNode` configuration read by `GetTransports`: the
configured leader (registry authority) address and the node's declared
type. -/
structure TransportConf where
  leader : Option OAddr
  nodeType : NodeType

/-- `CoreNode.GetTransports`: explicit multiaddr hints on the address win;
otherwise, with no configured leader, a leader-type node answers with its
own listen transports (`own`, the strings of the live host's multiaddrs,
whose `NewMultiaddr` re-parse in the code always succeeds and is the
identity here) while any other node logs a warning and answers with the
empty list; otherwise the configured leader's multiaddr hints are
returned. -/
def getTransports (conf : TransportConf) (own : List String) (a : OAddr) :
    List String :=
  let leaderTransports := a.libP2PTransports
  if leaderTransports ≠ [] then leaderTransports
  else
    match conf.leader with
    | none => if conf.nodeType = NodeType.leader then own else []
    | some l => l.libP2PTransports

/-- The dispatch statistics of a `CoreNode`: `successCount` and
`errorCount` (Go `int64`, increment-only, modelled as `Nat`). -/
structure Counters where
  successCount : Nat
  errorCount : Nat
deriving DecidableEq, Repr

/-- The outcomes of the three externally delegated stages of one `Use`
call: address translation, connection acquisition, and the request send
(the response value itself is irrelevant to the counters). -/
structure DispatchEnv where
  translateRes : Except String Unit
  connectRes : Except String Unit
  sendRes : Except String Unit

/-- The counter effect and returned result of one `CoreNode.Use` call:
a translation, connection, or send failure increments `errorCount` and
surfaces the wrapped error; otherwise `successCount` is incremented and
the response is returned. -/
def useCall (env : DispatchEnv) (c : Counters) : Counters × Except String Unit :=
  match env.translateRes with
  | .error e =>
    ({ c with errorCount := c.errorCount + 1 },
      .error ("failed to translate address: " ++ e))
  | .ok _ =>
    match env.connectRes with
    | .error e =>
      ({ c with errorCount := c.errorCount + 1 },
        .error ("failed to connect: " ++ e))
    | .ok _ =>
      match env.sendRes with
      | .error e =>
        ({ c with errorCount := c.errorCount + 1 },
          .error ("failed to send request: " ++ e))
      | .ok _ =>
        ({ c with successCount := c.successCount + 1 }, .ok ())

/-- The counters after a sequence of completed dispatch calls, each call
described by its stage outcomes. -/
def useTrace (envs : List DispatchEnv) (c : Counters) : Counters :=
  envs.foldl (fun c env => (useCall env c).1) c

/-- The lifecycle-relevant state of a `CoreNode`: the node state, the two
dispatch counters, and the append-only error log. -/
structure NodeSt where
  state : NodeState
  successCount : Nat
  errorCount : Nat
  errors : List String
deriving DecidableEq, Repr

/-- The hooks `Start` may run, recorded so that "the hook did not run" is
a statable property. -/
inductive LifecycleEvent where
  | initHook
  | registerHook
deriving DecidableEq, Repr

/-- `CoreNode.Start`.  `initRes` is the outcome of the overridable
`Initialize` hook; `reg` is the effect of `Register` on the node (its
nested `Use` dispatch may touch the counters) together with its outcome,
which `Start` only logs (registration failure does not abort startup).
Returns the node, the returned error, and the hooks that ran.  A node
whose state is not Stopped is left untouched with a warning and a nil
error. -/
def startNode (initRes : Except String Unit)
    (reg : NodeSt → NodeSt × Except String Unit) (n : NodeSt) :
    NodeSt × Except String Unit × List LifecycleEvent :=
  if n.state ≠ NodeState.stopped then (n, .ok (), [])
  else
    let n1 := { n with state := NodeState.starting }
    match initRes with
    | .error e =>
      ({ n1 with state := NodeState.error, errors := n1.errors ++ [e] },
        .error ("failed to initialize node: " ++ e), [LifecycleEvent.initHook])
    | .ok _ =>
      let n2 := (reg n1).1
      ({ n2 with state := NodeState.running }, .ok (),
        [LifecycleEvent.initHook, LifecycleEvent.registerHook])

/-- `CoreNode.Unregister`: a leader node skips unregistration and reports
success; any other node's outcome is that of the `o://register` `remove`
dispatch (`use`, whose nested `Use` may touch the counters). -/
def unregisterNode (t : NodeType) (use : NodeSt → NodeSt × Except String Unit)
    (n : NodeSt) : NodeSt × Except String Unit :=
  if t = NodeType.leader then (n, .ok ()) else use n

/-- The failure `Stop` collects from the unregistration attempt. -/
def unregFailures : Except String Unit → List String
  | .error e => ["failed to unregister: " ++ e]
  | .ok _ => []

/-- The failure `Stop` collects from closing the libp2p host; `none`
models a nil `p2pNode` (no close attempted). -/
def closeFailures : Option (Except String Unit) → List String
  | some (.error e) => ["failed to close p2p node: " ++ e]
  | _ => []

/-- `CoreNode.Stop`: set Stopping, attempt unregistration (a failure is
collected and the shutdown continues), close the libp2p host when one is
present (a failure is collected); when anything was collected, set Error,
append every collected failure to the error log and return one aggregated
error, otherwise set Stopped and return nil. -/
def stopNode (t : NodeType) (use : NodeSt → NodeSt × Except String Unit)
    (closeRes : Option (Except String Unit)) (n : NodeSt) :
    NodeSt × Except String Unit :=
  let ur := unregisterNode t use { n with state := NodeState.stopping }
  let errs := unregFailures ur.2 ++ closeFailures closeRes
  if errs = [] then ({ ur.1 with state := NodeState.stopped }, .ok ())
  else
    ({ ur.1 with state := NodeState.error, errors := ur.1.errors ++ errs },
      .error ("errors during shutdown: " ++ joinSlash errs))

/-- A heap-resident `OAddress` object: its value string and a reference
(index) into the slice store holding its transport list.  Go addresses are
pointers to such objects; Go transport lists are slices whose backing
array can be shared between objects. -/
structure AddrObj where
  value : String
  tref : Nat
deriving DecidableEq, Repr

/-- The heap: allocated address objects and allocated transport-list
backing arrays, each addressed by its index.  Allocation is modelled by
appending. -/
structure Mem where
  addrs : List AddrObj
  slices : List (List Transport)
deriving DecidableEq, Repr

/-- The value string of the address object behind reference `r`. -/
def Mem.valueAt (m : Mem) (r : Nat) : String :=
  (m.addrs.getD r ⟨"", 0⟩).value

/-- The transport list of the address object behind reference `r`. -/
def Mem.transportsAt (m : Mem) (r : Nat) : List Transport :=
  m.slices.getD (m.addrs.getD r ⟨"", 0⟩).tref []

/-- `NewOAddress`: allocate a backing array holding `ts` and a fresh
address object pointing at it; returns the new heap and the new
reference. -/
def Mem.newOAddress (m : Mem) (v : String) (ts : List Transport) : Mem × Nat :=
  ({ addrs := m.addrs ++ [⟨v, m.slices.length⟩], slices := m.slices ++ [ts] },
    m.addrs.length)

/-- `OAddress.SetTransports`: allocate a fresh backing array holding the
given multiaddrs (`make` + copy in the code) and repoint the receiver
object at it, in place — the receiver is mutated, no new address object is
created. -/
def Mem.setTransports (m : Mem) (r : Nat) (mas : List String) : Mem :=
  { addrs := m.addrs.set r
      { m.addrs.getD r ⟨"", 0⟩ with tref := m.slices.length }
    slices := m.slices ++ [mas.map Transport.ma] }

/-- `OAddress.Clone`: a fresh address object with an equal value and an
equal transport list copied into a fresh backing array (`make` + `copy` in
the code). -/
def Mem.cloneAddr (m : Mem) (r : Nat) : Mem × Nat :=
  ({ addrs := m.addrs ++ [⟨(m.addrs.getD r ⟨"", 0⟩).value, m.slices.length⟩]
     slices := m.slices ++ [m.transportsAt r] },
    m.addrs.length)

/-- `OAddress.WithPath` at heap level: a fresh address object whose value
is `withPathValue` of the receiver's and which shares the receiver's
transport backing array (the code spreads `addr.transports` into
`NewOAddress`, passing the same slice). -/
def Mem.withPathAddr (m : Mem) (r : Nat) (p : String) : Mem × Nat :=
  ({ addrs := m.addrs ++
        [⟨withPathValue (m.valueAt r) p, (m.addrs.getD r ⟨"", 0⟩).tref⟩]
     slices := m.slices },
    m.addrs.length)

/-- `HandleStaticAddressTranslation` at heap level: when no translation
applies, the very same reference is handed back (the Go code returns the
input pointer); on a usable registry match a fresh address is allocated; a
non-nil non-object `Result` panics as in the value-level model.  The
search outcome is a `SearchResponse` as in the value-level model. -/
def Mem.handleStaticAt (m : Mem) (r : Nat) (resp : SearchResponse) :
    GoResult (Mem × Nat) :=
  if strHasPre (m.valueAt r) "o://leader" then .ret (m, r)
  else
    match resp with
    | .firstAddr canon =>
      .ret (m.newOAddress (staticResolvedValue canon (m.valueAt r))
        ((m.transportsAt r).map fun t => Transport.custom t.toStr))
    | .resultNotMap => .crashed
    | _ => .ret (m, r)

/-- `GetTransports` at heap level, reading the address's hints from the
heap. -/
def Mem.getTransportsAt (conf : TransportConf) (own : List String) (m : Mem)
    (r : Nat) : List String :=
  let lt := (m.transportsAt r).filterMap fun t =>
    match t with
    | .ma s => some s
    | .custom _ => none
  if lt ≠ [] then lt
  else
    match conf.leader with
    | none => if conf.nodeType = NodeType.leader then own else []
    | some l => l.libP2PTransports

/-- `CoreNode.TranslateAddress` at heap level: static translation, then
resolver-chain resolution — `resolvedRef` is the chain's outcome at
reference level: the reference returned by the first matching resolver, or
`none` when no resolver matches, in which case the Go code hands back the
same pointer — then `SetTransports` is invoked on the next-hop address,
mutating it in place.  Returns the heap and the (next hop, target)
reference pair. -/
def Mem.translateAt (conf : TransportConf) (own : List String) (m : Mem)
    (r : Nat) (resp : SearchResponse) (resolvedRef : Option Nat) :
    GoResult (Mem × Nat × Nat) :=
  match m.handleStaticAt r resp with
  | .crashed => .crashed
  | .ret t =>
    let nextHop := resolvedRef.getD t.2
    let ts := Mem.getTransportsAt conf own t.1 nextHop
    .ret (Mem.setTransports t.1 nextHop ts, nextHop, t.2)

/-- Reading an index below the left list's length in an appended list
reads the left list. -/
theorem getD_append_lt {α : Type} (l l' : List α) (d : α) (n : Nat)
    (h : n < l.length) : (l ++ l').getD n d = l.getD n d := by
  simp [List.getD, List.getElem?_append, h]

/-- Reading the old length right after appending one element reads that
element: a freshly allocated cell. -/
theorem getD_append_len {α : Type} (l : List α) (x : α) (d : α) :
    (l ++ [x]).getD l.length d = x := by
  simp [List.getD]

/-- Updating one cell leaves every other cell unchanged. -/
theorem getD_set_ne {α : Type} (l : List α) (i j : Nat) (a d : α)
    (h : i ≠ j) : (l.set i a).getD j d = l.getD j d := by
  simp [List.getD, List.getElem?_set_ne h]

/-- Updating a valid cell makes reading it yield the new value. -/
theorem getD_set_self {α : Type} (l : List α) (i : Nat) (a d : α)
    (h : i < l.length) : (l.set i a).getD i d = a := by
  simp [List.getD, List.getElem?_set_self, h]

/-- Claim C3: resolver-chain resolution returns the result of the first
resolver in registration order that matches; when no resolver matches —
including the case of zero registered resolvers — it returns the original
address unchanged, and it never returns an error. -/
theorem resolve_first_match_total (rs : List Resolver) (a : OAddr) :
    resolveChain rs a = .ok ((rs.findSome? fun r => r a).getD a)
    ∧ ∀ e, resolveChain rs a ≠ .error e := by
  have h : resolveChain rs a = .ok ((rs.findSome? fun r => r a).getD a) := by
    induction rs with
    | nil => simp [resolveChain]
    | cons r rs ih => cases hr : r a <;> simp [resolveChain, hr, ih]
  refine ⟨h, fun e hc => ?_⟩
  rw [h] at hc
  cases hc

/-- Witness for C3 at the spec's own examples: a no-match resolver
followed by a resolver mapping everything to `o://x` resolves `o://a` to
`o://x`; the empty chain resolves `o://a` to itself. -/
theorem resolve_first_match_total_witness :
    resolveChain [fun _ => none, fun _ => some ⟨"o://x", []⟩] ⟨"o://a", []⟩
        = .ok ⟨"o://x", []⟩
    ∧ resolveChain [] ⟨"o://a", []⟩ = .ok ⟨"o://a", []⟩ :=
  ⟨(resolve_first_match_total [fun _ => none, fun _ => some ⟨"o://x", []⟩]
      ⟨"o://a", []⟩).1,
    (resolve_first_match_total [] ⟨"o://a", []⟩).1⟩

/-- Claim C9 counterexample: when the receiver's value ends with `/` and
the appended segment begins with `/`, `WithPath` produces a double slash
at the join point (`o://a/` + `/b` gives `o://a//b`, not the normalized
`o://a/b`). -/
theorem withPath_double_slash :
    (OAddr.withPath ⟨"o://a/", []⟩ "/b").value = "o://a//b"
    ∧ ("o://a//b" : String) ≠ "o://a/b" := by
  constructor
  · decide
  · decide

/-- Claim C9 (amended): `WithPath` returns a new address carrying the
receiver's transports whose value is the receiver's value, a `/`
separator, and the segment — but the separator is inserted only when the
receiver's value does not already end with `/` and the segment does not
already begin with `/`; when either side carries a slash the two strings
are concatenated directly, so a single slash results when exactly one side
carries it and a double slash when both do. -/
theorem withPath_join (a : OAddr) (p : String) :
    (OAddr.withPath a p).transports = a.transports
    ∧ (strHasSuf a.value "/" = false → strHasPre p "/" = false →
        (OAddr.withPath a p).value = a.value ++ "/" ++ p)
    ∧ (strHasSuf a.value "/" = true → (OAddr.withPath a p).value = a.value ++ p)
    ∧ (strHasPre p "/" = true → (OAddr.withPath a p).value = a.value ++ p) := by
  refine ⟨rfl, fun h1 h2 => ?_, fun h1 => ?_, fun h2 => ?_⟩
  · simp [OAddr.withPath, withPathValue, h1, h2, String.append_assoc]
  · simp [OAddr.withPath, withPathValue, h1]
  · simp [OAddr.withPath, withPathValue, h2]

/-- Witness for C9 (amended): a separator is inserted for `o://a` + `b`,
and none is inserted for `o://a/` + `b`. -/
theorem withPath_join_witness :
    (OAddr.withPath ⟨"o://a", []⟩ "b").value = "o://a" ++ "/" ++ "b"
    ∧ (OAddr.withPath ⟨"o://a/", []⟩ "b").value = "o://a/" ++ "b" :=
  ⟨(withPath_join ⟨"o://a", []⟩ "b").2.1 (by decide) (by decide),
    (withPath_join ⟨"o://a/", []⟩ "b").2.2.1 (by decide)⟩

/-- Claim C4: when the input address is not under the registry root and
the registry search's first result carries the canonical address string
`canon`, static translation returns an address whose value is `canon`
followed by every path segment of the input beyond its root in order (the
bare root case yielding `canon` as-is), with the input's already-attached
transports carried forward (as their string forms). -/
theorem static_translation_match (a : OAddr) (canon : String)
    (h : strHasPre a.value "o://leader" = false) :
    ∃ r, handleStaticAddressTranslation (.firstAddr canon) a = .ret (.ok r)
      ∧ r.value = (if a.splitAddress.length > 1
          then canon ++ "/" ++ joinSlash (a.splitAddress.drop 1)
          else canon)
      ∧ r.allTransports = a.allTransports := by
  refine ⟨{ value := staticResolvedValue canon a.value
            transports := a.allTransports.map Transport.custom }, ?_, rfl, ?_⟩
  · simp [handleStaticAddressTranslation, h]
  · simp [OAddr.allTransports, List.map_map, Function.comp, Transport.toStr]

/-- Witness for C4 at the spec's example: input `o://alias/extra/path`
with canonical `o://canon` yields `o://canon/extra/path`, transports
carried forward. -/
theorem static_translation_match_witness :
    ∃ r, handleStaticAddressTranslation (.firstAddr "o://canon")
          ⟨"o://alias/extra/path", [Transport.ma "/ip4/1/tcp/2"]⟩
        = .ret (.ok r)
      ∧ r.value = "o://canon/extra/path"
      ∧ r.allTransports = ["/ip4/1/tcp/2"] := by
  obtain ⟨r, h1, h2, h3⟩ :=
    static_translation_match
      ⟨"o://alias/extra/path", [Transport.ma "/ip4/1/tcp/2"]⟩ "o://canon"
      (by decide)
  refine ⟨r, h1, ?_, ?_⟩
  · rw [h2]; decide
  · rw [h3]; decide

/-- For every miss shape the code's comma-ok checks cover — the nested
dispatch failed, the reply had no result, the data list was missing or
empty, or the first entry was malformed — static translation returns the
original address unchanged and no error: these are the graceful branches
behind claim C5. -/
theorem static_translation_miss (resp : SearchResponse) (a : OAddr)
    (h1 : ∀ canon, resp ≠ SearchResponse.firstAddr canon)
    (h2 : resp ≠ SearchResponse.resultNotMap) :
    handleStaticAddressTranslation resp a = .ret (.ok a) := by
  cases resp
  · simp [handleStaticAddressTranslation]
  · simp [handleStaticAddressTranslation]
  · exact absurd rfl h2
  · simp [handleStaticAddressTranslation]
  · simp [handleStaticAddressTranslation]
  · exact absurd rfl (h1 _)

/-- A failed registry search leaves `o://svc/x` untouched and raises no
error. -/
theorem static_translation_miss_witness :
    handleStaticAddressTranslation SearchResponse.useErr ⟨"o://svc/x", []⟩
      = .ret (.ok ⟨"o://svc/x", []⟩) :=
  static_translation_miss SearchResponse.useErr ⟨"o://svc/x", []⟩
    (fun _ hc => by cases hc) (fun hc => by cases hc)

/-- Claim C5 (code bug, failing input): a registry reply whose `Result`
is non-nil but not a JSON object is a malformed payload on which static
translation does not return the original address with a nil error — the
unchecked inner type assertion panics and the dispatch call crashes. -/
theorem static_translation_crash_on_nonobject_result :
    handleStaticAddressTranslation SearchResponse.resultNotMap
        ⟨"o://svc/x", []⟩ = GoResult.crashed
    ∧ (GoResult.crashed : GoResult (Except String OAddr))
        ≠ GoResult.ret (Except.ok ⟨"o://svc/x", []⟩) :=
  ⟨rfl, fun h => nomatch h⟩

/-- Claim C6 counterexample: an address that carries an explicit transport
hint — an opaque string hint — does not get it returned verbatim:
`GetTransports` ignores string hints entirely and answers with the
configured authority's hints instead, refuting the claimed strict
precedence of explicit hints. -/
theorem getTransports_ignores_string_hints :
    (⟨"o://svc", [Transport.custom "custom-endpoint"]⟩ : OAddr).transports ≠ []
    ∧ getTransports
        ⟨some ⟨"o://leader", [Transport.ma "/ip4/9/tcp/1"]⟩, NodeType.node⟩ []
        ⟨"o://svc", [Transport.custom "custom-endpoint"]⟩ = ["/ip4/9/tcp/1"]
    ∧ getTransports
        ⟨some ⟨"o://leader", [Transport.ma "/ip4/9/tcp/1"]⟩, NodeType.node⟩ []
        ⟨"o://svc", [Transport.custom "custom-endpoint"]⟩
      ≠ (⟨"o://svc", [Transport.custom "custom-endpoint"]⟩ : OAddr).allTransports := by
  refine ⟨by decide, by decide, by decide⟩

/-- Claim C6 (amended): `getTransports` follows the strict precedence
explicit multiaddr hints > self-authority > configured authority >
nothing, where only structured multiaddr hints count — opaque string
hints are disregarded by transport selection: if the address carries
multiaddr hints they are returned verbatim; otherwise with no configured
authority a node of the leader type returns its own listen transports
while any other node returns the empty set (with a warning, not an
error); otherwise the configured authority address's multiaddr hints are
returned. -/
theorem getTransports_precedence (conf : TransportConf) (own : List String)
    (a : OAddr) :
    (a.libP2PTransports ≠ [] → getTransports conf own a = a.libP2PTransports)
    ∧ (a.libP2PTransports = [] → conf.leader = none →
        conf.nodeType = NodeType.leader → getTransports conf own a = own)
    ∧ (a.libP2PTransports = [] → conf.leader = none →
        conf.nodeType ≠ NodeType.leader → getTransports conf own a = [])
    ∧ (∀ l, a.libP2PTransports = [] → conf.leader = some l →
        getTransports conf own a = l.libP2PTransports) := by
  refine ⟨fun h => ?_, fun h1 h2 h3 => ?_, fun h1 h2 h3 => ?_,
    fun l h1 h2 => ?_⟩
  · simp [getTransports, h]
  · simp [getTransports, h1, h2, h3]
  · simp [getTransports, h1, h2, h3]
  · simp [getTransports, h1, h2]

/-- Witness for C6 (amended): a multiaddr hint is returned verbatim, and
a hintless address on a non-leader node with no authority yields the
empty set. -/
theorem getTransports_precedence_witness :
    getTransports ⟨none, NodeType.node⟩ []
        ⟨"o://svc", [Transport.ma "/ip4/1/tcp/1"]⟩ = ["/ip4/1/tcp/1"]
    ∧ getTransports ⟨none, NodeType.node⟩ [] ⟨"o://svc", []⟩ = [] := by
  constructor
  · exact (getTransports_precedence ⟨none, NodeType.node⟩ []
      ⟨"o://svc", [Transport.ma "/ip4/1/tcp/1"]⟩).1 (by decide)
  · exact (getTransports_precedence ⟨none, NodeType.node⟩ []
      ⟨"o://svc", []⟩).2.2.1 rfl rfl (by decide)

/-- One completed dispatch call increases the counter sum by exactly
one. -/
theorem useCall_sum (env : DispatchEnv) (c : Counters) :
    (useCall env c).1.successCount + (useCall env c).1.errorCount
      = c.successCount + c.errorCount + 1 := by
  rcases env with ⟨t, co, se⟩
  cases t <;> cases co <;> cases se <;> simp [useCall] <;> omega

/-- Claim C1: every completed dispatch call increments exactly one of the
two counters — `successCount` when translation, connection and send all
succeed, `errorCount` when any of them fails, the other counter staying
untouched — so after any sequence of completed dispatch calls the counter
sum exceeds the initial sum by exactly the number of calls. -/
theorem dispatch_counter_sum (envs : List DispatchEnv) (c : Counters)
    (env : DispatchEnv) :
    ((useTrace envs c).successCount + (useTrace envs c).errorCount
      = c.successCount + c.errorCount + envs.length)
    ∧ (env.translateRes = .ok () → env.connectRes = .ok () →
        env.sendRes = .ok () →
        (useCall env c).1 = { c with successCount := c.successCount + 1 })
    ∧ (¬(env.translateRes = .ok () ∧ env.connectRes = .ok ()
          ∧ env.sendRes = .ok ()) →
        (useCall env c).1 = { c with errorCount := c.errorCount + 1 }) := by
  refine ⟨?_, ?_, ?_⟩
  · induction envs generalizing c with
    | nil => simp [useTrace]
    | cons e es ih =>
      have hstep : useTrace (e :: es) c = useTrace es (useCall e c).1 := rfl
      rw [hstep, ih]
      have hone := useCall_sum e c
      simp only [List.length_cons]
      omega
  · intro h1 h2 h3
    simp [useCall, h1, h2, h3]
  · intro h
    rcases env with ⟨t, co, se⟩
    cases t with
    | error e => simp [useCall]
    | ok u =>
      cases u
      cases co with
      | error e => simp [useCall]
      | ok u =>
        cases u
        cases se with
        | error e => simp [useCall]
        | ok u =>
          cases u
          exact absurd ⟨rfl, rfl, rfl⟩ h

/-- Witness for C1: two dispatch calls (one fully successful, one with a
failing translation) raise the counter sum from 0 to 2; a successful call
bumps only `successCount`, a failing one only `errorCount`. -/
theorem dispatch_counter_sum_witness :
    ((useTrace [⟨.ok (), .ok (), .ok ()⟩, ⟨.error "boom", .ok (), .ok ()⟩]
        ⟨0, 0⟩).successCount
      + (useTrace [⟨.ok (), .ok (), .ok ()⟩, ⟨.error "boom", .ok (), .ok ()⟩]
          ⟨0, 0⟩).errorCount
      = 0 + 0 + 2)
    ∧ (useCall ⟨.ok (), .ok (), .ok ()⟩ ⟨3, 4⟩).1 = ⟨4, 4⟩
    ∧ (useCall ⟨.error "boom", .ok (), .ok ()⟩ ⟨3, 4⟩).1 = ⟨3, 5⟩ :=
  ⟨(dispatch_counter_sum
      [⟨.ok (), .ok (), .ok ()⟩, ⟨.error "boom", .ok (), .ok ()⟩] ⟨0, 0⟩
      ⟨.ok (), .ok (), .ok ()⟩).1,
    (dispatch_counter_sum [] ⟨3, 4⟩ ⟨.ok (), .ok (), .ok ()⟩).2.1 rfl rfl rfl,
    (dispatch_counter_sum [] ⟨3, 4⟩ ⟨.error "boom", .ok (), .ok ()⟩).2.2
      (fun hc => nomatch hc.1)⟩

/-- Claim C7: `Start` on a node whose state is not Stopped (in particular
an already-Running node) is a no-op returning success: the node — state,
both counters, error log — is unchanged, and neither the initialization
hook nor registration runs. -/
theorem start_non_stopped_noop (initRes : Except String Unit)
    (reg : NodeSt → NodeSt × Except String Unit) (n : NodeSt)
    (h : n.state ≠ NodeState.stopped) :
    startNode initRes reg n = (n, .ok (), []) := by
  simp [startNode, h]

/-- Witness for C7: starting an already-Running node changes nothing and
succeeds. -/
theorem start_non_stopped_noop_witness :
    startNode (.ok ()) (fun m => (m, .ok ()))
        ⟨NodeState.running, 2, 3, ["earlier"]⟩
      = (⟨NodeState.running, 2, 3, ["earlier"]⟩, .ok (), []) :=
  start_non_stopped_noop (.ok ()) (fun m => (m, .ok ()))
    ⟨NodeState.running, 2, 3, ["earlier"]⟩ (by decide)

/-- Claim C8 counterexample: on a Stopped, non-leader node whose
unregistration dispatch fails (the repository never initializes a
connection manager, so the nested `Use` always fails) while no libp2p
host is present (so closing the transport host is skipped and cannot
fail), `Stop` still sets the state to Error — refuting that Error arises
only when closing the underlying transport host fails. -/
theorem stop_error_without_close_failure :
    (stopNode NodeType.node
        (fun m =>
          (m, .error "failed to connect: connection manager not initialized"))
        none ⟨NodeState.stopped, 0, 0, []⟩).1.state = NodeState.error
    ∧ NodeState.error ≠ NodeState.stopped := by
  refine ⟨rfl, by decide⟩

/-- Claim C8 (amended): `Stop` transitions the node to Stopped when both
unregistration and the transport-host close succeed (the error log
untouched), and to Error when either of them fails; in the failure case
the collected failures are appended to the error log and reported through
a single aggregated returned error, the only way the failure surfaces. -/
theorem stop_transitions (t : NodeType)
    (use : NodeSt → NodeSt × Except String Unit)
    (closeRes : Option (Except String Unit)) (n : NodeSt) :
    ((unregisterNode t use { n with state := NodeState.stopping }).2 = .ok ()
      → (∀ e, closeRes ≠ some (.error e))
      → stopNode t use closeRes n
          = ({ (unregisterNode t use { n with state := NodeState.stopping }).1
                with state := NodeState.stopped }, .ok ()))
    ∧ (∀ e,
        (unregisterNode t use { n with state := NodeState.stopping }).2 = .error e
        → (stopNode t use closeRes n).1.state = NodeState.error
          ∧ (∃ msg, (stopNode t use closeRes n).2 = .error msg)
          ∧ (∃ fs, fs ≠ []
              ∧ (stopNode t use closeRes n).1.errors
                = (unregisterNode t use
                    { n with state := NodeState.stopping }).1.errors ++ fs))
    ∧ (∀ e, closeRes = some (.error e)
        → (stopNode t use closeRes n).1.state = NodeState.error
          ∧ (∃ msg, (stopNode t use closeRes n).2 = .error msg)
          ∧ (∃ fs, fs ≠ []
              ∧ (stopNode t use closeRes n).1.errors
                = (unregisterNode t use
                    { n with state := NodeState.stopping }).1.errors ++ fs)) := by
  have key : ∀ fs : List String, fs ≠ [] →
      unregFailures
          (unregisterNode t use { n with state := NodeState.stopping }).2
        ++ closeFailures closeRes = fs →
      (stopNode t use closeRes n).1.state = NodeState.error
        ∧ (∃ msg, (stopNode t use closeRes n).2 = .error msg)
        ∧ (∃ fs, fs ≠ []
            ∧ (stopNode t use closeRes n).1.errors
              = (unregisterNode t use
                  { n with state := NodeState.stopping }).1.errors ++ fs) := by
    intro fs hne hfs
    have hs : stopNode t use closeRes n
        = ({ (unregisterNode t use { n with state := NodeState.stopping }).1 with
              state := NodeState.error,
              errors := (unregisterNode t use
                { n with state := NodeState.stopping }).1.errors ++ fs },
            .error ("errors during shutdown: " ++ joinSlash fs)) := by
      simp only [stopNode, hfs]
      simp [hne]
    exact ⟨by rw [hs], ⟨_, by rw [hs]⟩, ⟨fs, hne, by rw [hs]⟩⟩
  refine ⟨fun h1 h2 => ?_, fun e h1 => ?_, fun e h1 => ?_⟩
  · cases hc : closeRes with
    | none =>
      subst hc
      simp [stopNode, h1, unregFailures, closeFailures]
    | some v =>
      cases v with
      | ok u =>
        cases u
        subst hc
        simp [stopNode, h1, unregFailures, closeFailures]
      | error e => exact absurd hc (h2 e)
  · cases hc : closeRes with
    | none =>
      subst hc
      exact key ["failed to unregister: " ++ e] (by simp)
        (by simp [h1, unregFailures, closeFailures])
    | some v =>
      cases v with
      | ok u =>
        cases u
        subst hc
        exact key ["failed to unregister: " ++ e] (by simp)
          (by simp [h1, unregFailures, closeFailures])
      | error e2 =>
        subst hc
        exact key
          ["failed to unregister: " ++ e, "failed to close p2p node: " ++ e2]
          (by simp) (by simp [h1, unregFailures, closeFailures])
  · subst h1
    cases hu : (unregisterNode t use { n with state := NodeState.stopping }).2 with
    | ok u =>
      cases u
      exact key ["failed to close p2p node: " ++ e] (by simp)
        (by simp [hu, unregFailures, closeFailures])
    | error e1 =>
      exact key
        ["failed to unregister: " ++ e1, "failed to close p2p node: " ++ e]
        (by simp) (by simp [hu, unregFailures, closeFailures])

/-- Witness for C8 (amended): stopping a leader node (unregistration
skipped) with no libp2p host transitions Stopped and succeeds. -/
theorem stop_transitions_witness :
    stopNode NodeType.leader (fun m => (m, .ok ())) none
        ⟨NodeState.running, 1, 2, []⟩
      = (⟨NodeState.stopped, 1, 2, []⟩, .ok ()) :=
  (stop_transitions NodeType.leader (fun m => (m, .ok ())) none
    ⟨NodeState.running, 1, 2, []⟩).1 rfl (fun _ h => nomatch h)

/-- Claim C2 counterexample: a dispatch call mutates the address object
the caller passed in.  The heap holds one address, `o://x`, carrying one
opaque string transport hint; the node has no configured leader, is not a
leader, and has no registered resolvers (`resolvedRef = none`, the state
of every fresh `CoreNode`), and the registry search fails (as it always
does without a connection manager).  `TranslateAddress` then calls
`SetTransports` on the very object the caller passed in, and the caller's
address loses its transport hint. -/
theorem translate_mutates_caller_address :
    Mem.translateAt ⟨none, NodeType.node⟩ []
        ⟨[⟨"o://x", 0⟩], [[Transport.custom "t1"]]⟩ 0
        SearchResponse.useErr none
      = GoResult.ret (⟨[⟨"o://x", 1⟩], [[Transport.custom "t1"], []]⟩, 0, 0)
    ∧ (⟨[⟨"o://x", 1⟩], [[Transport.custom "t1"], []]⟩ : Mem).transportsAt 0
        = []
    ∧ (⟨[⟨"o://x", 0⟩], [[Transport.custom "t1"]]⟩ : Mem).transportsAt 0
        = [Transport.custom "t1"]
    ∧ ([] : List Transport) ≠ [Transport.custom "t1"] := by
  refine ⟨by decide, by decide, by decide, by decide⟩

/-- Claim C2 (amended): appending a path returns a fresh address object
and leaves the caller's original — value and transports — unchanged, but
setting transports is an in-place mutation of the receiver (its transport
list is replaced by the given multiaddrs, its value kept), and a dispatch
call may therefore mutate the address object the caller passed in, since
`TranslateAddress` invokes `SetTransports` on a next-hop address that can
alias the caller's input. -/
theorem address_mutation_semantics (m : Mem) (r : Nat) (p : String)
    (mas : List String) (h : r < m.addrs.length) :
    ((m.withPathAddr r p).2 ≠ r
      ∧ (m.withPathAddr r p).1.valueAt r = m.valueAt r
      ∧ (m.withPathAddr r p).1.transportsAt r = m.transportsAt r)
    ∧ ((m.setTransports r mas).valueAt r = m.valueAt r
      ∧ (m.setTransports r mas).transportsAt r = mas.map Transport.ma) := by
  refine ⟨⟨?_, ?_, ?_⟩, ?_, ?_⟩
  · simp [Mem.withPathAddr]
    omega
  · simp [Mem.withPathAddr, Mem.valueAt, List.getD, List.getElem?_append,
      List.getElem?_eq_getElem, h]
  · simp [Mem.withPathAddr, Mem.transportsAt, List.getD,
      List.getElem?_append, List.getElem?_eq_getElem, h]
  · simp [Mem.setTransports, Mem.valueAt, getD_set_self, h]
  · simp [Mem.setTransports, Mem.transportsAt, getD_set_self, h,
      getD_append_len]

/-- Witness for C2 (amended) on a one-address heap: `WithPath` leaves the
original's transports untouched, while `SetTransports` replaces them in
place. -/
theorem address_mutation_semantics_witness :
    ((⟨[⟨"o://a", 0⟩], [[Transport.custom "t1"]]⟩ : Mem).withPathAddr 0
        "b").1.transportsAt 0 = [Transport.custom "t1"]
    ∧ ((⟨[⟨"o://a", 0⟩], [[Transport.custom "t1"]]⟩ : Mem).setTransports 0
        ["/ip4/1/tcp/1"]).transportsAt 0 = [Transport.ma "/ip4/1/tcp/1"] :=
  ⟨(address_mutation_semantics ⟨[⟨"o://a", 0⟩], [[Transport.custom "t1"]]⟩
      0 "b" ["/ip4/1/tcp/1"] (by decide)).1.2.2,
    (address_mutation_semantics ⟨[⟨"o://a", 0⟩], [[Transport.custom "t1"]]⟩
      0 "b" ["/ip4/1/tcp/1"] (by decide)).2.2⟩

/-- Claim C10: `Clone` yields a fresh address object with an equal value
and an equal transport list held in a fresh backing array (a different
slice reference), so that replacing the clone's transports afterwards
leaves the original's unchanged, and vice versa. -/
theorem clone_independent (m : Mem) (r : Nat) (mas : List String)
    (hr : r < m.addrs.length)
    (hwf : (m.addrs.getD r ⟨"", 0⟩).tref < m.slices.length) :
    ((m.cloneAddr r).1.valueAt (m.cloneAddr r).2 = m.valueAt r)
    ∧ ((m.cloneAddr r).1.transportsAt (m.cloneAddr r).2 = m.transportsAt r)
    ∧ (((m.cloneAddr r).1.addrs.getD (m.cloneAddr r).2 ⟨"", 0⟩).tref
        ≠ ((m.cloneAddr r).1.addrs.getD r ⟨"", 0⟩).tref)
    ∧ (((m.cloneAddr r).1.setTransports (m.cloneAddr r).2 mas).transportsAt r
        = m.transportsAt r)
    ∧ (((m.cloneAddr r).1.setTransports r mas).transportsAt (m.cloneAddr r).2
        = m.transportsAt r) := by
  have hne : m.addrs.length ≠ r := by omega
  have hA : m.addrs.getD r ⟨"", 0⟩ = m.addrs[r] := List.getD_eq_getElem _ _ hr
  have hwf2 : (m.addrs[r]).tref < m.slices.length := by rw [← hA]; exact hwf
  refine ⟨?_, ?_, ?_, ?_, ?_⟩
  · simp [Mem.cloneAddr, Mem.valueAt, getD_append_len]
  · simp [Mem.cloneAddr, Mem.transportsAt, getD_append_len]
  · simp [Mem.cloneAddr, List.getD, List.getElem?_append,
      List.getElem?_eq_getElem, hr]
    omega
  · simp [Mem.cloneAddr, Mem.setTransports, Mem.transportsAt, List.getD,
      List.getElem?_set_ne hne, List.getElem?_append,
      List.getElem?_eq_getElem, hr, hwf2, Nat.lt_succ_of_lt,
      List.getElem_append_left]
  · simp only [Mem.cloneAddr, Mem.setTransports, Mem.transportsAt,
      List.getD, List.get?_eq_getElem?]
    rw [List.getElem?_set_ne (Ne.symm hne),
      List.getElem?_append_right (Nat.le_refl _)]
    simp [List.getElem?_append, List.getElem_append_right]

/-- Witness for C10 on a one-address heap: the clone carries the
original's transport list, and replacing the clone's transports leaves
the original's list as it was. -/
theorem clone_independent_witness :
    (((⟨[⟨"o://a", 0⟩], [[Transport.ma "/ip4/1/tcp/1"]]⟩ : Mem).cloneAddr 0).1.transportsAt
        ((⟨[⟨"o://a", 0⟩], [[Transport.ma "/ip4/1/tcp/1"]]⟩ : Mem).cloneAddr 0).2
      = [Transport.ma "/ip4/1/tcp/1"])
    ∧ ((((⟨[⟨"o://a", 0⟩], [[Transport.ma "/ip4/1/tcp/1"]]⟩ : Mem).cloneAddr 0).1.setTransports
          ((⟨[⟨"o://a", 0⟩], [[Transport.ma "/ip4/1/tcp/1"]]⟩ : Mem).cloneAddr 0).2
          ["x"]).transportsAt 0
        = [Transport.ma "/ip4/1/tcp/1"]) :=
  ⟨(clone_independent ⟨[⟨"o://a", 0⟩], [[Transport.ma "/ip4/1/tcp/1"]]⟩ 0
      ["x"] (by decide) (by decide)).2.1,
    (clone_independent ⟨[⟨"o://a", 0⟩], [[Transport.ma "/ip4/1/tcp/1"]]⟩ 0
      ["x"] (by decide) (by decide)).2.2.2.1⟩

end OlaneGo
